import Mathlib

/-!
Verification of the antigravity2api-nodejs core: the streaming line decoder
(`src/api/stream_parser.js`) and the Claude request conversion pipeline
(`src/utils/converters/claude.js`).  JavaScript strings fed to the line
splitter are modelled as `List Char`; payload fields are modelled as `String`.
-/

namespace A2A

/-- One non-newline character `c` prepended in front of an already-split
suffix: if no complete line has been produced yet the character joins the
unterminated tail, otherwise it joins the first complete line.  This mirrors
the left-to-right `indexOf('\n')` scan of `LineBuffer.append`
(src/api/stream_parser.js lines 20-34) expressed as a right fold. -/
def lbCons (c : Char) (p : List (List Char) × List Char) : List (List Char) × List Char :=
  match p with
  | ([], tl) => ([], c :: tl)
  | (l :: ls, tl) => ((c :: l) :: ls, tl)

/-- Splits a character stream into the list of complete (newline-terminated)
lines and the unterminated tail, exactly as `LineBuffer.append` does after
concatenating the pending buffer with the new chunk
(src/api/stream_parser.js lines 20-34). -/
def splitLines : List Char → List (List Char) × List Char
  | [] => ([], [])
  | c :: rest =>
    if c = '\n' then ([] :: (splitLines rest).1, (splitLines rest).2)
    else lbCons c (splitLines rest)

/-- `LineBuffer.append`: the buffer retained from previous calls is prepended
to the incoming chunk, complete lines are returned and the unterminated tail
becomes the new buffer (src/api/stream_parser.js lines 20-34). -/
def lineBufferAppend (buffer chunk : List Char) : List (List Char) × List Char :=
  splitLines (buffer ++ chunk)

/-- Feeding a sequence of chunks one at a time through `LineBuffer.append`,
collecting all emitted lines and threading the retained buffer. -/
def feedChunks (buffer : List Char) : List (List Char) → List (List Char) × List Char
  | [] => ([], buffer)
  | ch :: chs =>
    ((lineBufferAppend buffer ch).1 ++ (feedChunks (lineBufferAppend buffer ch).2 chs).1,
     (feedChunks (lineBufferAppend buffer ch).2 chs).2)

/-- Rejoin split lines, restoring the newline terminator of each. -/
def joinLines : List (List Char) → List Char
  | [] => []
  | l :: ls => l ++ '\n' :: joinLines ls

theorem splitLines_append (s t : List Char) :
    splitLines (s ++ t) =
      ((splitLines s).1 ++ (splitLines ((splitLines s).2 ++ t)).1,
       (splitLines ((splitLines s).2 ++ t)).2) := by
  induction s with
  | nil => simp [splitLines]
  | cons c s ih =>
    by_cases hc : c = '\n'
    · subst hc
      simp [splitLines, ih]
    · rcases hs : splitLines s with ⟨ls1, tl1⟩
      rw [hs] at ih
      rcases ls1 with _ | ⟨l, ls⟩
      · simp [splitLines, hc, hs, lbCons, ih]
      · simp [splitLines, hc, hs, lbCons, ih]

theorem splitLines_tail (s : List Char) :
    splitLines (splitLines s).2 = ([], (splitLines s).2) := by
  induction s with
  | nil => rfl
  | cons c s ih =>
    by_cases hc : c = '\n'
    · subst hc
      simpa [splitLines] using ih
    · rcases hs : splitLines s with ⟨ls1, tl1⟩
      rw [hs] at ih
      rcases ls1 with _ | ⟨l, ls⟩
      · simp [splitLines, hc, hs, lbCons, ih]
      · simpa [splitLines, hc, hs, lbCons] using ih

theorem joinLines_splitLines (s : List Char) :
    joinLines (splitLines s).1 ++ (splitLines s).2 = s := by
  induction s with
  | nil => rfl
  | cons c s ih =>
    by_cases hc : c = '\n'
    · subst hc
      simpa [splitLines, joinLines] using ih
    · rcases hs : splitLines s with ⟨ls1, tl1⟩
      rw [hs] at ih
      rcases ls1 with _ | ⟨l, ls⟩
      · simpa [splitLines, hc, hs, lbCons, joinLines] using ih
      · simpa [splitLines, hc, hs, lbCons, joinLines] using ih

theorem feedChunks_eq (chs : List (List Char)) (buffer : List Char)
    (hbuf : splitLines buffer = ([], buffer)) :
    feedChunks buffer chs = splitLines (buffer ++ chs.flatten) := by
  induction chs generalizing buffer with
  | nil => simp [feedChunks, hbuf]
  | cons ch chs ih =>
    have htail := splitLines_tail (buffer ++ ch)
    have hrec := ih (splitLines (buffer ++ ch)).2 htail
    have happ := splitLines_append (buffer ++ ch) chs.flatten
    simp only [feedChunks, lineBufferAppend, hrec, List.flatten_cons, ← List.append_assoc, happ]

/-!
## Streaming decoder (`parseAndEmitStreamChunk`, src/api/stream_parser.js)

JavaScript `undefined`/missing fields are modelled as `none`; JavaScript
truthiness on string-valued fields (where `''` is falsy) is `jsTruthy`.
`JSON.stringify` of the invocation arguments is modelled by keeping the
arguments in already-serialized text form.  `generateToolCallId` and
`getOriginalToolName` live outside the translated sources and are supplied
as parameters of `DecoderEnv`, as is the configured `MIN_SIGNATURE_LENGTH`.
-/

/-- A `functionCall` object inside an upstream part. -/
structure FunctionCall where
  id : Option String := none
  name : String := ""
  args : String := ""
deriving DecidableEq, Repr

/-- One entry of `response.candidates[0].content.parts`. -/
structure UpPart where
  thought : Bool := false
  text : Option String := none
  thoughtSignature : Option String := none
  functionCall : Option FunctionCall := none
deriving DecidableEq, Repr

/-- `response.usageMetadata`. -/
structure UsageMetadata where
  promptTokenCount : Option Nat := none
  candidatesTokenCount : Option Nat := none
  totalTokenCount : Option Nat := none
deriving DecidableEq, Repr

/-- One entry of `response.candidates`; `parts` is `content?.parts`. -/
structure Candidate where
  parts : Option (List UpPart) := none
  finishReason : Option String := none
deriving DecidableEq, Repr

/-- The `response` object of a parsed upstream record. -/
structure UpResponse where
  candidates : List Candidate := []
  usageMetadata : Option UsageMetadata := none
deriving DecidableEq, Repr

/-- A successfully parsed upstream streaming record. -/
structure StreamRecord where
  response : Option UpResponse := none
deriving DecidableEq, Repr

/-- A tool call in OpenAI-style form as built by `convertToToolCall`. -/
structure ToolCall where
  id : String
  name : String
  arguments : String
  thoughtSignature : Option String := none
deriving DecidableEq, Repr

/-- The decoder's output events, as delivered to the callback. -/
inductive StreamEvent where
  | reasoning (content : String) (thoughtSignature : Option String)
  | text (content : String)
  | toolCalls (calls : List ToolCall)
  | usage (promptTokens completionTokens totalTokens : Nat)
deriving DecidableEq, Repr

/-- The mutable `state` object threaded through `parseAndEmitStreamChunk`. -/
structure StreamState where
  reasoningSignature : Option String := none
  toolCalls : List ToolCall := []
  sessionId : Option String := none
  model : Option String := none
deriving DecidableEq, Repr

/-- External collaborators and configuration of the decoder:
the configured `MIN_SIGNATURE_LENGTH`, the tool-name reverse lookup
`getOriginalToolName(sessionId, model, name)` and the id synthesized by
`generateToolCallId()` when a functionCall carries no id. -/
structure DecoderEnv where
  minSignatureLength : Nat
  lookupOriginalToolName : String → String → String → Option String
  genToolCallId : String

/-- JavaScript truthiness of an optional string: missing and `''` are falsy. -/
def jsTruthy : Option String → Bool
  | none => false
  | some s => s != ""

/-- `a || b || null` over optional strings with JavaScript truthiness. -/
def jsOrString (a b : Option String) : Option String :=
  if jsTruthy a then a else if jsTruthy b then b else none

/-- The source's signature validity test
`sig && sig.length >= MIN_SIGNATURE_LENGTH`. -/
def jsValidSignature (minLen : Nat) : Option String → Bool
  | none => false
  | some s => (s != "") && decide (minLen ≤ s.length)

/-- `convertToToolCall` (src/api/stream_parser.js lines 76-87): takes the
upstream id or a synthesized one, maps the sanitized tool name back to the
original when the session/model keys are truthy and the lookup hits. -/
def convertToToolCall (env : DecoderEnv) (sessionId model : Option String)
    (fc : FunctionCall) : ToolCall :=
  let id := match fc.id with
    | some i => if i != "" then i else env.genToolCallId
    | none => env.genToolCallId
  let name := match sessionId, model with
    | some sid, some m =>
        if sid != "" && m != "" then
          match env.lookupOriginalToolName sid m fc.name with
          | some orig => if orig != "" then orig else fc.name
          | none => fc.name
        else fc.name
    | _, _ => fc.name
  { id := id, name := name, arguments := fc.args }

/-- The result of one decoder step: the updated state, the events passed to
the callback in order, and the `cacheSignature` writes performed. -/
structure StepResult where
  state : StreamState
  events : List StreamEvent
  cacheWrites : List (String × String)
deriving DecidableEq, Repr

/-- Processing of one part of the loop body in `parseAndEmitStreamChunk`
(src/api/stream_parser.js lines 100-125). -/
def processPart (env : DecoderEnv) (st : StreamState) (p : UpPart) : StepResult :=
  if p.thought then
    let st' := if jsValidSignature env.minSignatureLength p.thoughtSignature then
        { st with reasoningSignature := p.thoughtSignature }
      else st
    { state := st',
      events := [StreamEvent.reasoning (p.text.getD "")
        (jsOrString p.thoughtSignature st'.reasoningSignature)],
      cacheWrites := [] }
  else if p.text.isSome then
    { state := st, events := [StreamEvent.text (p.text.getD "")], cacheWrites := [] }
  else
    match p.functionCall with
    | some fc =>
      let tc := convertToToolCall env st.sessionId st.model fc
      if jsValidSignature env.minSignatureLength p.thoughtSignature then
        { state := { st with toolCalls :=
            st.toolCalls ++ [{ tc with thoughtSignature := p.thoughtSignature }] },
          events := [],
          cacheWrites := [(tc.id, p.thoughtSignature.getD "")] }
      else
        { state := { st with toolCalls := st.toolCalls ++ [tc] },
          events := [], cacheWrites := [] }
    | none => { state := st, events := [], cacheWrites := [] }

/-- The `for (const part of parts)` loop of `parseAndEmitStreamChunk`. -/
def processParts (env : DecoderEnv) (st : StreamState) :
    List UpPart → StepResult
  | [] => { state := st, events := [], cacheWrites := [] }
  | p :: ps =>
    let r := processPart env st p
    let rest := processParts env r.state ps
    { state := rest.state, events := r.events ++ rest.events,
      cacheWrites := r.cacheWrites ++ rest.cacheWrites }

/-- Processing of one successfully parsed record: the parts loop, then the
finish-reason block emitting the batched tool calls and the usage summary
(src/api/stream_parser.js lines 96-144). -/
def processRecord (env : DecoderEnv) (st : StreamState) (data : StreamRecord) :
    StepResult :=
  let partsOpt := data.response.bind fun r =>
    (r.candidates.head?).bind fun c => c.parts
  let r1 := match partsOpt with
    | some ps => processParts env st ps
    | none => { state := st, events := [], cacheWrites := [] }
  let finish := data.response.bind fun r =>
    (r.candidates.head?).bind fun c => c.finishReason
  if jsTruthy finish then
    let r2 := if r1.state.toolCalls.isEmpty then r1
      else { r1 with
        state := { r1.state with toolCalls := [] },
        events := r1.events ++ [StreamEvent.toolCalls r1.state.toolCalls] }
    match data.response.bind fun r => r.usageMetadata with
    | some u =>
      { r2 with events := r2.events ++ [StreamEvent.usage
          (u.promptTokenCount.getD 0) (u.candidatesTokenCount.getD 0)
          (u.totalTokenCount.getD 0)] }
    | none => r2
  else r1

/-- The `'data: '` envelope marker. -/
def dataMark : List Char := "data: ".toList

/-- `parseAndEmitStreamChunk` (src/api/stream_parser.js lines 92-148) over a
single reconstructed line.  `parseJson` is the external structural parser
(`JSON.parse` plus the envelope shape): a payload that fails to parse or does
not fit the envelope yields `none`, which the source swallows in its
`try`/`catch`, leaving the state untouched and emitting nothing. -/
def parseAndEmitStreamChunk (env : DecoderEnv)
    (parseJson : List Char → Option StreamRecord)
    (line : List Char) (st : StreamState) : StepResult :=
  if dataMark.isPrefixOf line then
    match parseJson (line.drop dataMark.length) with
    | some data => processRecord env st data
    | none => { state := st, events := [], cacheWrites := [] }
  else { state := st, events := [], cacheWrites := [] }

/-- Signatures attached to the tool invocations accumulated so far. -/
def accumulatedSignatures (st : StreamState) : List String :=
  st.toolCalls.filterMap ToolCall.thoughtSignature

/-- Recognizer for batched tool-call events. -/
def isToolCallsEvent : StreamEvent → Bool
  | .toolCalls _ => true
  | _ => false

/-- Recognizer for usage-summary events. -/
def isUsageEvent : StreamEvent → Bool
  | .usage _ _ _ => true
  | _ => false

/-- A concrete decoder environment used by the evaluation lemmas below. -/
def sampleEnv : DecoderEnv :=
  { minSignatureLength := 4,
    lookupOriginalToolName := fun _ _ _ => none,
    genToolCallId := "toolu_gen" }

/-- Builds an upstream record with a single candidate, matching the envelope
`response.candidates[0]` with the given parts, finish reason and usage. -/
def mkRecord (parts : Option (List UpPart)) (finish : Option String)
    (u : Option UsageMetadata) : StreamRecord :=
  { response := some { candidates := [{ parts := parts, finishReason := finish }],
                       usageMetadata := u } }

/-- C1: for every input stream and every way of splitting it into chunks,
feeding the chunks one at a time to `LineBuffer.append` yields exactly the
same line sequence and final buffer as feeding the whole stream as a single
chunk, and every returned line was newline-terminated in the observed input
(rejoining the emitted lines with their terminators and appending the
retained tail reconstructs the input exactly). -/
theorem lineBuffer_chunking_transparent (chunks : List (List Char)) :
    feedChunks [] chunks = splitLines chunks.flatten ∧
    joinLines (splitLines chunks.flatten).1 ++ (splitLines chunks.flatten).2
      = chunks.flatten := by
  refine ⟨?_, joinLines_splitLines chunks.flatten⟩
  simpa using feedChunks_eq chunks [] rfl

/-- C2: a thought-flagged part carrying a valid (length at least the
configured minimum) signature followed by two unsigned thought parts in the
same record yields three reasoning deltas all carrying the first part's
signature. -/
theorem reasoning_signature_propagation (env : DecoderEnv) (st : StreamState)
    (sig t1 t2 t3 : String) (hne : sig ≠ "")
    (hlen : env.minSignatureLength ≤ sig.length) :
    (processRecord env st (mkRecord (some [
        { thought := true, text := some t1, thoughtSignature := some sig },
        { thought := true, text := some t2 },
        { thought := true, text := some t3 }]) none none)).events =
      [StreamEvent.reasoning t1 (some sig),
       StreamEvent.reasoning t2 (some sig),
       StreamEvent.reasoning t3 (some sig)] := by
  simp [mkRecord, processRecord, processParts, processPart, jsValidSignature,
    jsOrString, jsTruthy, hne, hlen]

/-- Witness for C2 at a concrete input. -/
theorem reasoning_signature_propagation_witness :
    (processRecord sampleEnv {} (mkRecord (some [
        { thought := true, text := some "a", thoughtSignature := some "sig0" },
        { thought := true, text := some "b" },
        { thought := true, text := some "c" }]) none none)).events =
      [StreamEvent.reasoning "a" (some "sig0"),
       StreamEvent.reasoning "b" (some "sig0"),
       StreamEvent.reasoning "c" (some "sig0")] :=
  reasoning_signature_propagation sampleEnv {} "sig0" "a" "b" "c"
    (by decide) (by decide)

/-- C3: a record carrying two function-invocation parts and a finish-reason
marker yields exactly one batched tool-call event containing both
invocations in order, followed by one usage-summary event when usage
counters are present and none otherwise. -/
theorem tool_call_batching (env : DecoderEnv) (st : StreamState)
    (fc1 fc2 : FunctionCall) (finish : String) (u : Option UsageMetadata)
    (hempty : st.toolCalls = []) (hfin : finish ≠ "") :
    (processRecord env st (mkRecord (some [
        { functionCall := some fc1 }, { functionCall := some fc2 }])
        (some finish) u)).events =
      StreamEvent.toolCalls [convertToToolCall env st.sessionId st.model fc1,
        convertToToolCall env st.sessionId st.model fc2] ::
        (match u with
          | some um => [StreamEvent.usage (um.promptTokenCount.getD 0)
              (um.candidatesTokenCount.getD 0) (um.totalTokenCount.getD 0)]
          | none => []) ∧
    (processRecord env st (mkRecord (some [
        { functionCall := some fc1 }, { functionCall := some fc2 }])
        (some finish) u)).events.countP isToolCallsEvent = 1 ∧
    (processRecord env st (mkRecord (some [
        { functionCall := some fc1 }, { functionCall := some fc2 }])
        (some finish) u)).events.countP isUsageEvent ≤ 1 := by
  cases u <;>
    simp [mkRecord, processRecord, processParts, processPart, jsValidSignature,
      jsTruthy, hempty, hfin, isToolCallsEvent, isUsageEvent]

/-- Witness for C3 at a concrete input. -/
theorem tool_call_batching_witness :
    (processRecord sampleEnv {} (mkRecord (some [
        { functionCall := some { id := some "t1", name := "f1", args := "x" } },
        { functionCall := some { id := some "t2", name := "f2", args := "y" } }])
        (some "STOP")
        (some { promptTokenCount := some 5, candidatesTokenCount := some 7,
                totalTokenCount := some 12 }))).events =
      [StreamEvent.toolCalls [{ id := "t1", name := "f1", arguments := "x" },
        { id := "t2", name := "f2", arguments := "y" }],
       StreamEvent.usage 5 7 12] ∧
    (processRecord sampleEnv {} (mkRecord (some [
        { functionCall := some { id := some "t1", name := "f1", args := "x" } },
        { functionCall := some { id := some "t2", name := "f2", args := "y" } }])
        (some "STOP")
        (some { promptTokenCount := some 5, candidatesTokenCount := some 7,
                totalTokenCount := some 12 }))).events.countP
        isToolCallsEvent = 1 ∧
    (processRecord sampleEnv {} (mkRecord (some [
        { functionCall := some { id := some "t1", name := "f1", args := "x" } },
        { functionCall := some { id := some "t2", name := "f2", args := "y" } }])
        (some "STOP")
        (some { promptTokenCount := some 5, candidatesTokenCount := some 7,
                totalTokenCount := some 12 }))).events.countP
        isUsageEvent ≤ 1 :=
  tool_call_batching sampleEnv {}
    { id := some "t1", name := "f1", args := "x" }
    { id := some "t2", name := "f2", args := "y" }
    "STOP"
    (some { promptTokenCount := some 5, candidatesTokenCount := some 7,
            totalTokenCount := some 12 })
    rfl (by decide)

/-- C4 counterexample: processing a thought part whose signature `"x"` is
shorter than the configured minimum still attaches that signature to the
emitted reasoning delta (src/api/stream_parser.js line 109 guards only on
truthiness, not on the minimum length), refuting the claim that a
below-threshold signature is never attached to any emitted event. -/
theorem short_signature_attached_counterexample :
    String.length "x" < sampleEnv.minSignatureLength ∧
    (processRecord sampleEnv {} (mkRecord (some [
        { thought := true, text := some "t", thoughtSignature := some "x" }])
        none none)).events =
      [StreamEvent.reasoning "t" (some "x")] := by
  exact ⟨by decide, by decide⟩

/-- C4 (amended): a below-threshold signature is never written to the
signature cache, never becomes the turn's current reasoning signature and is
never attached to an accumulated tool invocation; it is however still echoed
verbatim on the reasoning delta of the very part that carried it. -/
theorem short_signature_not_cached_or_accumulated (env : DecoderEnv)
    (st : StreamState) (p : UpPart) (s : String)
    (hs : p.thoughtSignature = some s)
    (hshort : s.length < env.minSignatureLength) :
    (processPart env st p).cacheWrites = [] ∧
    (processPart env st p).state.reasoningSignature = st.reasoningSignature ∧
    accumulatedSignatures (processPart env st p).state =
      accumulatedSignatures st := by
  have hnle : ¬ env.minSignatureLength ≤ s.length := Nat.not_le.mpr hshort
  have hinv : jsValidSignature env.minSignatureLength p.thoughtSignature = false := by
    simp [jsValidSignature, hs, hnle]
  by_cases ht : p.thought
  · simp [processPart, ht, hinv]
  · by_cases htext : p.text.isSome
    · simp [processPart, ht, htext]
    · cases hfc : p.functionCall with
      | none => simp [processPart, ht, htext, hfc]
      | some fc =>
        simp [processPart, ht, htext, hfc, hinv, accumulatedSignatures,
          convertToToolCall]

/-- Witness for the amended C4 at a concrete input. -/
theorem short_signature_not_cached_or_accumulated_witness :
    (processPart sampleEnv {}
      { thought := true, text := some "t",
        thoughtSignature := some "x" }).cacheWrites = [] ∧
    (processPart sampleEnv {}
      { thought := true, text := some "t",
        thoughtSignature := some "x" }).state.reasoningSignature =
      StreamState.reasoningSignature {} ∧
    accumulatedSignatures (processPart sampleEnv {}
      { thought := true, text := some "t",
        thoughtSignature := some "x" }).state =
      accumulatedSignatures {} :=
  short_signature_not_cached_or_accumulated sampleEnv {}
    { thought := true, text := some "t", thoughtSignature := some "x" }
    "x" rfl (by decide)

/-- C5: the per-line parse step is total and drops bad lines silently: a
line without the `'data: '` envelope marker produces no events, no cache
writes and no state change, and so does a line whose payload fails
structural parsing. -/
theorem malformed_line_dropped (env : DecoderEnv)
    (parseJson : List Char → Option StreamRecord)
    (line : List Char) (st : StreamState) :
    (dataMark.isPrefixOf line = false →
      parseAndEmitStreamChunk env parseJson line st =
        { state := st, events := [], cacheWrites := [] }) ∧
    (parseJson (line.drop dataMark.length) = none →
      parseAndEmitStreamChunk env parseJson line st =
        { state := st, events := [], cacheWrites := [] }) := by
  constructor
  · intro h; simp [parseAndEmitStreamChunk, h]
  · intro h
    by_cases hp : dataMark.isPrefixOf line <;>
      simp [parseAndEmitStreamChunk, hp, h]

/-- Witness for C5: a keep-alive line without the envelope marker and a
marked line with an unparseable payload are both dropped. -/
theorem malformed_line_dropped_witness :
    parseAndEmitStreamChunk sampleEnv (fun _ => none) (": ka".toList) {} =
      { state := {}, events := [], cacheWrites := [] } ∧
    parseAndEmitStreamChunk sampleEnv (fun _ => none) ("data: x".toList) {} =
      { state := {}, events := [], cacheWrites := [] } :=
  ⟨(malformed_line_dropped sampleEnv (fun _ => none) (": ka".toList) {}).1
      (by decide),
   (malformed_line_dropped sampleEnv (fun _ => none) ("data: x".toList) {}).2
      rfl⟩

/-!
## Claude request conversion (`generateClaudeRequestBody`, src/utils/converters/claude.js)

The orchestration (model-family detection, the recovery gate, the
per-message processing order, the empty-parts placeholder and the final
Claude-only filter) is translated from src/utils/converters/claude.js.
The helpers it imports from `../format/index.js` (thinking utilities and the
content converter) are not part of the given sources; they are modelled from
the spec, as marked on each definition.
-/

/-- A Claude-format content block of an inbound message. -/
inductive CBlock where
  | text (s : String)
  | thinking (s : String) (signature : Option String)
  | toolUse (id : String) (name : String) (input : String)
  | toolResult (toolUseId : String) (content : String)
deriving DecidableEq, Repr

/-- An inbound Claude-format message: a role and either plain string content
or a list of content blocks. -/
structure CMsg where
  role : String
  content : String ⊕ List CBlock
deriving DecidableEq, Repr

/-- A part of an outbound Google-format content entry. -/
inductive GPart where
  | text (s : String)
  | thought (s : String) (thoughtSignature : Option String)
  | functionCall (id : String) (name : String) (args : String)
  | functionResponse (id : String) (response : String)
deriving DecidableEq, Repr

/-- An outbound Google-format content entry. -/
structure GContent where
  role : String
  parts : List GPart
deriving DecidableEq, Repr

/-- The model family of `getModelFamily` (src/utils/converters/claude.js
lines 34-39). -/
inductive ModelFamily where
  | claude
  | gemini
  | unknown
deriving DecidableEq, Repr

/-- Lower-cased character list of a model name, for the `toLowerCase()`
plus `includes(...)` tests of the source. -/
def lowerChars (s : String) : List Char :=
  s.toList.map Char.toLower

/-- Decidable substring containment over character lists, modelling
JavaScript's `String.prototype.includes`. -/
def containsSub (hay needle : List Char) : Bool :=
  decide (needle <:+: hay)

/-- `getModelFamily` (src/utils/converters/claude.js lines 34-39):
`'claude'` wins over `'gemini'` as a substring of the lower-cased name. -/
def getModelFamily (m : String) : ModelFamily :=
  if containsSub (lowerChars m) ("claude".toList) then ModelFamily.claude
  else if containsSub (lowerChars m) ("gemini".toList) then ModelFamily.gemini
  else ModelFamily.unknown

/-- Numeric value of a digit run, as `parseInt(..., 10)` computes it. -/
def digitsToNat (ds : List Char) : Nat :=
  ds.foldl (fun n c => 10 * n + (c.toNat - 48)) 0

/-- First match of the pattern `gemini-(\d+)` in a character list: the first
occurrence of `gemini-` that is immediately followed by at least one digit,
returning the value of the maximal digit run after it. -/
def geminiVersionAt : List Char → Option Nat
  | [] => none
  | c :: rest =>
    if ("gemini-".toList).isPrefixOf (c :: rest) then
      let ds := ((c :: rest).drop 7).takeWhile Char.isDigit
      if ds.isEmpty then geminiVersionAt rest else some (digitsToNat ds)
    else geminiVersionAt rest

/-- `isThinkingModel` (src/utils/converters/claude.js lines 46-58): Claude
models with `thinking` in the name, Gemini models with `thinking` in the
name, and Gemini models of major version 3 or higher. -/
def isThinkingModel (m : String) : Bool :=
  if containsSub (lowerChars m) ("claude".toList)
      && containsSub (lowerChars m) ("thinking".toList) then true
  else if containsSub (lowerChars m) ("gemini".toList) then
    if containsSub (lowerChars m) ("thinking".toList) then true
    else match geminiVersionAt (lowerChars m) with
      | some v => decide (3 ≤ v)
      | none => false
  else false

/-- Modelled from the spec: validity of a signature token for the
thinking-block lifecycle utilities (missing from src; spec section 6,
"Minimum signature length": a token below the configured threshold is
treated as absent/invalid). -/
def specValidSig (minSig : Nat) : Option String → Bool
  | none => false
  | some s => decide (minSig ≤ s.length)

/-- Tests whether a block is a thinking block. -/
def isThinkingBlock : CBlock → Bool
  | .thinking _ _ => true
  | _ => false

/-- Tests whether a block is a tool invocation. -/
def isToolUseBlock : CBlock → Bool
  | .toolUse _ _ _ => true
  | _ => false

/-- Tests whether a block is a thinking block without a valid signature. -/
def isUnsignedThinking (minSig : Nat) : CBlock → Bool
  | .thinking _ sig => !(specValidSig minSig sig)
  | _ => false

/-- Identifier of the first tool invocation of a turn, if any. -/
def firstToolUseId : List CBlock → Option String
  | [] => none
  | .toolUse id _ _ :: _ => some id
  | _ :: rest => firstToolUseId rest

/-- Modelled from the spec: `restoreThinkingSignatures`
(src/utils/format/thinking-utils.js, missing from src; spec section 4.3
step 1): for every thinking block lacking a valid signature, look up the
signature cache under a co-located tool-invocation id of the same turn and
attach the cached signature when found, leaving the block unchanged
otherwise. -/
def restoreThinkingSignatures (cache : String → Option String) (minSig : Nat)
    (blocks : List CBlock) : List CBlock :=
  blocks.map fun b => match b with
    | .thinking s sig =>
      if specValidSig minSig sig then CBlock.thinking s sig
      else match firstToolUseId blocks with
        | some tid =>
          match cache tid with
          | some cs => CBlock.thinking s (some cs)
          | none => CBlock.thinking s sig
        | none => CBlock.thinking s sig
    | b => b

/-- Modelled from the spec: `removeTrailingThinkingBlocks`
(src/utils/format/thinking-utils.js, missing from src; spec section 4.3
step 2): scanning from the end, drop unsigned thinking blocks in trailing
position, stopping at the first signed or non-thinking block. -/
def removeTrailingThinkingBlocks (minSig : Nat) (blocks : List CBlock) :
    List CBlock :=
  (blocks.reverse.dropWhile (isUnsignedThinking minSig)).reverse

/-- Modelled from the spec: `reorderAssistantContent`
(src/utils/format/thinking-utils.js, missing from src; spec section 4.3
step 3): stably partition the blocks into thinking blocks, then blocks that
are neither thinking nor tool invocations, then tool invocations. -/
def reorderAssistantContent (blocks : List CBlock) : List CBlock :=
  blocks.filter isThinkingBlock
    ++ blocks.filter (fun b => !isThinkingBlock b && !isToolUseBlock b)
    ++ blocks.filter isToolUseBlock

/-- Modelled from the spec: per-variant block-to-part renaming performed by
`convertContentToParts` (src/utils/format/content-converter.js, missing from
src; spec sections 3 and 6): thinking blocks become thought-flagged parts
carrying their signature, text becomes plain text parts, tool invocations
become function calls and tool results become function responses. -/
def convertBlockToPart : CBlock → GPart
  | .text s => GPart.text s
  | .thinking s sig => GPart.thought s sig
  | .toolUse id n a => GPart.functionCall id n a
  | .toolResult id c => GPart.functionResponse id c

/-- Modelled from the spec: `convertContentToParts`
(src/utils/format/content-converter.js, missing from src): plain string
content becomes a single text part, block lists are converted per block. -/
def convertContentToParts : String ⊕ List CBlock → List GPart
  | .inl s => [GPart.text s]
  | .inr blocks => blocks.map convertBlockToPart

/-- Tests whether an outbound part is a thought part without a valid
signature. -/
def isUnsignedThoughtPart (minSig : Nat) : GPart → Bool
  | .thought _ sig => !(specValidSig minSig sig)
  | _ => false

/-- Modelled from the spec: `filterUnsignedThinkingBlocks`
(src/utils/format/thinking-utils.js, missing from src; spec section 4.3,
final step): drop every remaining unsigned thought part anywhere in the
whole contents list. -/
def filterUnsignedThinkingBlocks (minSig : Nat) (contents : List GContent) :
    List GContent :=
  contents.map fun c =>
    { c with parts := c.parts.filter (fun p => !(isUnsignedThoughtPart minSig p)) }

/-- The assistant-side roles of src/utils/converters/claude.js line 171. -/
def isAssistantRole (r : String) : Bool :=
  r == "assistant" || r == "model"

/-- Identifiers of the tool invocations a turn ends with. -/
def trailingToolUseIds (blocks : List CBlock) : List String :=
  (blocks.reverse.takeWhile isToolUseBlock).reverse.filterMap fun b =>
    match b with
    | .toolUse id _ _ => some id
    | _ => none

/-- Tests whether a message contains a tool result answering one of the
given invocation ids. -/
def hasToolResultFor (ids : List String) (msg : CMsg) : Bool :=
  match msg.content with
  | .inl _ => false
  | .inr blocks => blocks.any fun b =>
    match b with
    | .toolResult tid _ => ids.contains tid
    | _ => false

/-- Walks the reversed turn list; `later` accumulates the turns that follow
the current position in original order. -/
def needsRecoveryAux : List CMsg → List CMsg → Bool
  | [], _ => false
  | m :: earlier, later =>
    if isAssistantRole m.role then
      match m.content with
      | .inr blocks =>
        let ids := trailingToolUseIds blocks
        !ids.isEmpty && !(later.any (hasToolResultFor ids))
      | .inl _ => false
    else needsRecoveryAux earlier (m :: later)

/-- Modelled from the spec: `needsThinkingRecovery`
(src/utils/format/thinking-utils.js, missing from src; spec section 4.3
step 4): an open tool loop exists when the most recent assistant turn ends
in one or more tool invocations with no corresponding tool-result turn
following them. -/
def needsThinkingRecovery (msgs : List CMsg) : Bool :=
  needsRecoveryAux msgs.reverse []

/-- Dangling invocation ids of the most recent assistant turn. -/
def danglingIdsAux : List CMsg → List String
  | [] => []
  | m :: earlier =>
    if isAssistantRole m.role then
      match m.content with
      | .inr blocks => trailingToolUseIds blocks
      | .inl _ => []
    else danglingIdsAux earlier

/-- Modelled from the spec: `closeToolLoopForThinking`
(src/utils/format/thinking-utils.js, missing from src; spec section 4.3
step 5 and design notes): synthesizes a terminating tool-result turn for the
dangling invocations so the history presents a clean boundary; the exact
synthesized content is an implementation choice. -/
def closeToolLoopForThinking (msgs : List CMsg) : List CMsg :=
  msgs ++ [{ role := "user",
             content := Sum.inr ((danglingIdsAux msgs.reverse).map fun i =>
               CBlock.toolResult i "Tool loop closed for provider switch") }]

/-- Modelled from the spec: the reasoning-signature-sensitive targets of the
recovery step are, per the gate in src/utils/converters/claude.js line 160,
the Gemini-family thinking models, whose signed-reasoning continuity an open
tool loop would violate. -/
def isReasoningSignatureSensitive (m : String) : Bool :=
  decide (getModelFamily m = ModelFamily.gemini) && isThinkingModel m

/-- The recovery gate of src/utils/converters/claude.js lines 158-163:
`isGeminiModel && isThinking && needsThinkingRecovery(claudeMessages)`. -/
def recoveryApplied (modelName : String) (msgs : List CMsg) : Bool :=
  decide (getModelFamily modelName = ModelFamily.gemini)
    && isThinkingModel modelName && needsThinkingRecovery msgs

/-- `processedMessages` of src/utils/converters/claude.js lines 158-163. -/
def processedMessages (modelName : String) (msgs : List CMsg) : List CMsg :=
  if recoveryApplied modelName msgs then closeToolLoopForThinking msgs else msgs

/-- Modelled from the spec: `convertRole`
(src/utils/format/content-converter.js, missing from src): assistant-side
roles map to `model`, everything else to `user`. -/
def convertRole (r : String) : String :=
  if isAssistantRole r then "model" else "user"

/-- The per-message conversion of src/utils/converters/claude.js lines
166-193: assistant block content is passed through signature restoration,
trailing pruning and canonical reordering, every message is converted to
parts, and an empty parts array receives an empty-text placeholder. -/
def convertMessage (minSig : Nat) (cache : String → Option String)
    (msg : CMsg) : GContent :=
  let content :=
    if isAssistantRole msg.role then
      match msg.content with
      | .inr blocks =>
        Sum.inr (reorderAssistantContent (removeTrailingThinkingBlocks minSig
          (restoreThinkingSignatures cache minSig blocks)))
      | c => c
    else msg.content
  let parts := convertContentToParts content
  { role := convertRole msg.role,
    parts := if parts.isEmpty then [GPart.text ""] else parts }

/-- The contents pipeline of `generateClaudeRequestBody`
(src/utils/converters/claude.js lines 158-198): the recovery gate, the
per-message conversion, and the final Claude-only filter of unsigned
thinking parts. -/
def buildContents (minSig : Nat) (cache : String → Option String)
    (modelName : String) (msgs : List CMsg) : List GContent :=
  let contents := (processedMessages modelName msgs).map (convertMessage minSig cache)
  if getModelFamily modelName = ModelFamily.claude then
    filterUnsignedThinkingBlocks minSig contents
  else contents

/-- Tests whether some outbound content entry has an empty parts array. -/
def hasEmptyParts (cs : List GContent) : Bool :=
  cs.any fun c => c.parts.isEmpty

/-- C6: an assistant turn `[Thinking "a" (no signature), Text "b",
ToolUse "t1"]` with no cached signature for `t1` and a Claude-family
(signature-sensitive) target converts to the turn `[Text "b", ToolUse "t1"]`:
the unsigned thinking block is pruned. -/
theorem unsigned_thinking_scenario (minSig : Nat)
    (cache : String → Option String) (hc : cache "t1" = none) :
    buildContents minSig cache "claude-sonnet-4-5"
      [{ role := "assistant",
         content := Sum.inr [CBlock.thinking "a" none, CBlock.text "b",
           CBlock.toolUse "t1" "f" "args1"] }] =
      [{ role := "model",
         parts := [GPart.text "b", GPart.functionCall "t1" "f" "args1"] }] := by
  have hfam : getModelFamily "claude-sonnet-4-5" = ModelFamily.claude := by decide
  simp [buildContents, processedMessages, recoveryApplied, hfam, convertMessage,
    restoreThinkingSignatures, firstToolUseId, specValidSig, hc,
    removeTrailingThinkingBlocks, isUnsignedThinking, reorderAssistantContent,
    isThinkingBlock, isToolUseBlock, convertContentToParts, convertBlockToPart,
    filterUnsignedThinkingBlocks, isUnsignedThoughtPart, convertRole,
    isAssistantRole]

/-- Witness for C6 at a concrete input. -/
theorem unsigned_thinking_scenario_witness :
    buildContents 5 (fun _ => none) "claude-sonnet-4-5"
      [{ role := "assistant",
         content := Sum.inr [CBlock.thinking "a" none, CBlock.text "b",
           CBlock.toolUse "t1" "f" "args1"] }] =
      [{ role := "model",
         parts := [GPart.text "b", GPart.functionCall "t1" "f" "args1"] }] :=
  unsigned_thinking_scenario 5 (fun _ => none) rfl

/-- C7: for every input conversation, when the target model is
Claude-family the produced contents carry no thought part lacking a valid
signature anywhere in the whole contents list. -/
theorem claude_filter_no_unsigned_thinking (minSig : Nat)
    (cache : String → Option String) (modelName : String) (msgs : List CMsg)
    (hfam : getModelFamily modelName = ModelFamily.claude) :
    ∀ c ∈ buildContents minSig cache modelName msgs, ∀ p ∈ c.parts,
      isUnsignedThoughtPart minSig p = false := by
  intro c hcmem p hp
  simp only [buildContents, hfam, if_pos, filterUnsignedThinkingBlocks,
    List.mem_map] at hcmem
  obtain ⟨c0, -, rfl⟩ := hcmem
  simp only [List.mem_filter, Bool.not_eq_true'] at hp
  exact hp.2

/-- Witness for C7 at a concrete input. -/
theorem claude_filter_no_unsigned_thinking_witness :
    isUnsignedThoughtPart 5 (GPart.text "b") = false :=
  claude_filter_no_unsigned_thinking 5 (fun _ => none) "claude-3"
    [{ role := "assistant", content := Sum.inr [CBlock.text "b"] }] (by decide)
    { role := "model", parts := [GPart.text "b"] } (by decide)
    (GPart.text "b") (by decide)

/-- Helper equation: the source's recovery gate equals the conjunction of
target signature-sensitivity and open-loop detection. -/
theorem recoveryApplied_eq (modelName : String) (msgs : List CMsg) :
    recoveryApplied modelName msgs =
      (isReasoningSignatureSensitive modelName && needsThinkingRecovery msgs) := by
  simp [recoveryApplied, isReasoningSignatureSensitive, Bool.and_assoc]

/-- C8: the recovery transformation is applied exactly when the
conversation-state analysis detects an open tool loop and the target is
reasoning-signature-sensitive; otherwise the history is forwarded unchanged,
and in particular an empty history is never rewritten for any target. -/
theorem recovery_gate (modelName : String) (msgs : List CMsg) :
    (isReasoningSignatureSensitive modelName = true ∧
        needsThinkingRecovery msgs = true →
      processedMessages modelName msgs = closeToolLoopForThinking msgs) ∧
    (¬ (isReasoningSignatureSensitive modelName = true ∧
        needsThinkingRecovery msgs = true) →
      processedMessages modelName msgs = msgs) ∧
    processedMessages modelName [] = [] := by
  refine ⟨?_, ?_, ?_⟩
  · rintro ⟨h1, h2⟩
    simp [processedMessages, recoveryApplied_eq, h1, h2]
  · intro h
    have hfalse : (isReasoningSignatureSensitive modelName
        && needsThinkingRecovery msgs) = false := by
      cases hA : isReasoningSignatureSensitive modelName <;>
        cases hB : needsThinkingRecovery msgs <;> simp_all
    simp [processedMessages, recoveryApplied_eq, hfalse]
  · simp [processedMessages, recoveryApplied, needsThinkingRecovery,
      needsRecoveryAux]

/-- A concrete history ending in an unanswered tool invocation. -/
def openLoopMsgs : List CMsg :=
  [{ role := "assistant",
     content := Sum.inr [CBlock.text "calling", CBlock.toolUse "t9" "f" "x"] }]

/-- Witness for C8 at concrete inputs: a Gemini thinking target rewrites an
open loop, a Claude target forwards the same history unchanged. -/
theorem recovery_gate_witness :
    processedMessages "gemini-3-pro" openLoopMsgs =
      closeToolLoopForThinking openLoopMsgs ∧
    processedMessages "claude-opus" openLoopMsgs = openLoopMsgs :=
  ⟨(recovery_gate "gemini-3-pro" openLoopMsgs).1 ⟨by decide, by decide⟩,
   (recovery_gate "claude-opus" openLoopMsgs).2.1 (by decide)⟩

/-- C10 counterexample: with a Claude-family target, a message whose only
block is an unsigned thinking block converts to an outbound content entry
with an empty parts array: the placeholder of
src/utils/converters/claude.js lines 183-186 runs before the Claude-only
unsigned-thinking filter of lines 196-198, which can empty the parts again,
refuting the claim that no outbound content message is ever empty. -/
theorem empty_parts_counterexample :
    buildContents 5 (fun _ => none) "claude-sonnet-4-5"
      [{ role := "user", content := Sum.inr [CBlock.thinking "a" none] }] =
      [{ role := "user", parts := [] }] ∧
    hasEmptyParts (buildContents 5 (fun _ => none) "claude-sonnet-4-5"
      [{ role := "user", content := Sum.inr [CBlock.thinking "a" none] }]) =
      true := by
  exact ⟨by decide, by decide⟩

/-- C10 (amended): every content entry produced by the per-message
conversion has a non-empty parts array (the placeholder is inserted when
filtering and pruning leave zero parts), and hence for every non-Claude
target every outbound content entry is non-empty; for Claude-family targets
the subsequent unsigned-thinking filter can empty an entry again. -/
theorem outbound_parts_nonempty (minSig : Nat)
    (cache : String → Option String) (modelName : String) (msgs : List CMsg)
    (hfam : getModelFamily modelName ≠ ModelFamily.claude) :
    (∀ msg, (convertMessage minSig cache msg).parts ≠ []) ∧
    ∀ c ∈ buildContents minSig cache modelName msgs, c.parts ≠ [] := by
  have hmsg : ∀ msg : CMsg, (convertMessage minSig cache msg).parts ≠ [] := by
    intro msg
    simp only [convertMessage]
    split <;> split <;> simp_all
  refine ⟨hmsg, ?_⟩
  intro c hcmem
  simp only [buildContents, if_neg hfam, List.mem_map] at hcmem
  obtain ⟨m0, -, rfl⟩ := hcmem
  exact hmsg m0

/-- Witness for the amended C10 at a concrete input. -/
theorem outbound_parts_nonempty_witness :
    (convertMessage 5 (fun _ => none)
      { role := "user", content := Sum.inl "hi" }).parts ≠ [] :=
  (outbound_parts_nonempty 5 (fun _ => none) "gemini-2.5-flash" []
    (by decide)).1 { role := "user", content := Sum.inl "hi" }

end A2A
